import Mathlib

/-!
# Verification of the starfield scene component

A shallow embedding of the starfield rendering component (src/src/App.vue):

* the star-generation loop run by the mount handler (2000 stars written into
  preallocated position / color / size buffers), modelled over `ℝ` with the
  random stream abstracted as a function `ℕ → ℝ`, each `Math.random()` call
  consuming the next index;
* a JavaScript-number model (`JSNum`: exact rationals extended with the
  IEEE-754 special values `Infinity`, `-Infinity`, `NaN`) for the
  division-by-zero behaviour of the minimum-distance rescale at the origin;
* a runtime state machine (`RState`) for the component lifecycle: the mount
  handler, the self-rescheduling animation callback, the resize handler and the
  unmount handler, with instrumentation counters for render, cancel and
  dispose calls.

Numeric buffers are modelled as fixed-length lists (`Float32Array` of the
source) written by `List.set`; the generation loop additionally records the
trace of written indices for each buffer.
-/

namespace Starfield

/-- `starCount = 2000` of the source. -/
def starCount : ℕ := 2000

/-- `minDistance = 2` of the source. -/
noncomputable def minDistance : ℝ := 2

/-- The x draw of star `i`: `(Math.random() - 0.5) * 20`, the random stream
consumed seven values per star in source order (x, y, z, r, g, b, size). -/
noncomputable def drawX (rand : ℕ → ℝ) (i : ℕ) : ℝ := (rand (7 * i) - 0.5) * 20

/-- The y draw of star `i`: `(Math.random() - 0.5) * 20`. -/
noncomputable def drawY (rand : ℕ → ℝ) (i : ℕ) : ℝ := (rand (7 * i + 1) - 0.5) * 20

/-- The z draw of star `i`: `(Math.random() - 0.5) * 20`. -/
noncomputable def drawZ (rand : ℕ → ℝ) (i : ℕ) : ℝ := (rand (7 * i + 2) - 0.5) * 20

/-- Lines 46-52 of the source: compute `distance = Math.sqrt(x*x + y*y + z*z)`
and, when `distance < minDistance`, multiply all three coordinates by
`scale = minDistance / distance`. -/
noncomputable def rescaled (x y z : ℝ) : ℝ × ℝ × ℝ :=
  let distance := Real.sqrt (x * x + y * y + z * z)
  if distance < minDistance then
    let scale := minDistance / distance
    (x * scale, y * scale, z * scale)
  else
    (x, y, z)

/-- The initial distance `Math.sqrt(x*x + y*y + z*z)` of star `i`'s draws. -/
noncomputable def starDist (rand : ℕ → ℝ) (i : ℕ) : ℝ :=
  Real.sqrt (drawX rand i * drawX rand i + drawY rand i * drawY rand i +
    drawZ rand i * drawZ rand i)

/-- The position triple stored for star `i`. -/
noncomputable def storedPos (rand : ℕ → ℝ) (i : ℕ) : ℝ × ℝ × ℝ :=
  rescaled (drawX rand i) (drawY rand i) (drawZ rand i)

/-- The size stored for star `i`: `Math.random() * 0.3 + 0.1`. -/
noncomputable def storedSize (rand : ℕ → ℝ) (i : ℕ) : ℝ := rand (7 * i + 6) * 0.3 + 0.1

/-- The three parallel buffers of the Star Field (`Float32Array`s of the
source) together with the trace of buffer indices written by the loop. -/
structure StarBuffers where
  positions : List ℝ
  colors : List ℝ
  sizes : List ℝ
  posWrites : List ℕ
  colorWrites : List ℕ
  sizeWrites : List ℕ

/-- The freshly allocated buffers: `new Float32Array(starCount * 3)` twice and
`new Float32Array(starCount)`, zero-initialised, nothing written yet. -/
noncomputable def initBuffers : StarBuffers :=
  { positions := List.replicate (starCount * 3) 0
    colors := List.replicate (starCount * 3) 0
    sizes := List.replicate starCount 0
    posWrites := []
    colorWrites := []
    sizeWrites := [] }

/-- One iteration of the generation loop (lines 36-65 of the source) at index
`i`: draw and rescale the position, store it at offsets `i3`, `i3+1`, `i3+2`,
store three colour draws at the same offsets of the colour buffer, and one
size at offset `i` of the size buffer. Every `List.set` is paired with
recording the written index. -/
noncomputable def genStar (rand : ℕ → ℝ) (buf : StarBuffers) (i : ℕ) : StarBuffers :=
  let i3 := i * 3
  let p := storedPos rand i
  { positions := ((buf.positions.set i3 p.1).set (i3 + 1) p.2.1).set (i3 + 2) p.2.2
    colors := ((buf.colors.set i3 (rand (7 * i + 3))).set (i3 + 1)
        (rand (7 * i + 4))).set (i3 + 2) (rand (7 * i + 5))
    sizes := buf.sizes.set i (storedSize rand i)
    posWrites := buf.posWrites ++ [i3, i3 + 1, i3 + 2]
    colorWrites := buf.colorWrites ++ [i3, i3 + 1, i3 + 2]
    sizeWrites := buf.sizeWrites ++ [i] }

/-- The generation loop after its first `k` iterations (`for (let i = 0;
i < starCount; i++)` stopped after `k` steps). -/
noncomputable def genLoop (rand : ℕ → ℝ) : ℕ → StarBuffers
  | 0 => initBuffers
  | k + 1 => genStar rand (genLoop rand k) k

/-- The Star Field generated at mount: the full loop over all 2000 indices. -/
noncomputable def generateStars (rand : ℕ → ℝ) : StarBuffers := genLoop rand starCount

/-- The contents of the position (or colour) buffer written by the first `k`
iterations, as a flat list of 3-component blocks. -/
noncomputable def flat3 (f g h : ℕ → ℝ) : ℕ → List ℝ
  | 0 => []
  | k + 1 => flat3 f g h k ++ [f k, g k, h k]

/-- The contents of the size buffer written by the first `k` iterations. -/
noncomputable def flat1 (f : ℕ → ℝ) : ℕ → List ℝ
  | 0 => []
  | k + 1 => flat1 f k ++ [f k]

/-- The stored x-coordinate of star `i`. -/
noncomputable def posX (rand : ℕ → ℝ) (i : ℕ) : ℝ := (storedPos rand i).1

/-- The stored y-coordinate of star `i`. -/
noncomputable def posY (rand : ℕ → ℝ) (i : ℕ) : ℝ := (storedPos rand i).2.1

/-- The stored z-coordinate of star `i`. -/
noncomputable def posZ (rand : ℕ → ℝ) (i : ℕ) : ℝ := (storedPos rand i).2.2

/-- The triple stored for star `i` in a buffer collection, read back from the
flat position buffer at offsets `3*i`, `3*i+1`, `3*i+2`. -/
noncomputable def posTriple (b : StarBuffers) (i : ℕ) : ℝ × ℝ × ℝ :=
  (b.positions.getD (3 * i) 0, b.positions.getD (3 * i + 1) 0,
    b.positions.getD (3 * i + 2) 0)

/-- Euclidean norm of a stored triple, written as the source writes it. -/
noncomputable def tripleNorm (p : ℝ × ℝ × ℝ) : ℝ :=
  Real.sqrt (p.1 * p.1 + p.2.1 * p.2.1 + p.2.2 * p.2.2)

end Starfield

/-- A JavaScript number (IEEE-754 double) in the idealisation used for the
degenerate-geometry analysis: finite values are exact rationals (no rounding
and no overflow are modelled, and zero is unsigned), extended with the special
values `Infinity`, `-Infinity` and `NaN`, whose arithmetic follows IEEE-754. -/
inductive JSNum where
  | num (q : ℚ)
  | posInf
  | negInf
  | nan
deriving DecidableEq

namespace JSNum

/-- JavaScript subtraction on the special-value model. -/
def sub : JSNum → JSNum → JSNum
  | nan, _ => nan
  | _, nan => nan
  | num a, num b => num (a - b)
  | num _, posInf => negInf
  | num _, negInf => posInf
  | posInf, num _ => posInf
  | posInf, posInf => nan
  | posInf, negInf => posInf
  | negInf, num _ => negInf
  | negInf, posInf => negInf
  | negInf, negInf => nan

/-- JavaScript addition on the special-value model. -/
def add : JSNum → JSNum → JSNum
  | nan, _ => nan
  | _, nan => nan
  | num a, num b => num (a + b)
  | num _, posInf => posInf
  | num _, negInf => negInf
  | posInf, num _ => posInf
  | posInf, posInf => posInf
  | posInf, negInf => nan
  | negInf, num _ => negInf
  | negInf, posInf => nan
  | negInf, negInf => negInf

/-- JavaScript multiplication on the special-value model; in particular
`0 * Infinity = NaN`. -/
def mul : JSNum → JSNum → JSNum
  | nan, _ => nan
  | _, nan => nan
  | num a, num b => num (a * b)
  | num a, posInf => if a = 0 then nan else if 0 < a then posInf else negInf
  | num a, negInf => if a = 0 then nan else if 0 < a then negInf else posInf
  | posInf, num b => if b = 0 then nan else if 0 < b then posInf else negInf
  | negInf, num b => if b = 0 then nan else if 0 < b then negInf else posInf
  | posInf, posInf => posInf
  | posInf, negInf => negInf
  | negInf, posInf => negInf
  | negInf, negInf => posInf

/-- JavaScript division on the special-value model; in particular a positive
finite value divided by zero is `Infinity` (signed zero is not modelled, so
division by zero takes the sign of the numerator). -/
def div : JSNum → JSNum → JSNum
  | nan, _ => nan
  | _, nan => nan
  | num a, num b =>
    if b = 0 then (if a = 0 then nan else if 0 < a then posInf else negInf)
    else num (a / b)
  | num _, posInf => num 0
  | num _, negInf => num 0
  | posInf, num b => if 0 ≤ b then posInf else negInf
  | negInf, num b => if 0 ≤ b then negInf else posInf
  | posInf, _ => nan
  | negInf, _ => nan

/-- The JavaScript `<` comparison: any comparison involving `NaN` is false. -/
def lt : JSNum → JSNum → Bool
  | nan, _ => false
  | _, nan => false
  | num a, num b => decide (a < b)
  | num _, posInf => true
  | num _, negInf => false
  | posInf, _ => false
  | negInf, negInf => false
  | negInf, _ => true

/-- `Number.isFinite`: true exactly on finite values. -/
def isFinite : JSNum → Bool
  | num _ => true
  | _ => false

end JSNum

namespace Starfield

/-- Lines 40-52 of the source over JavaScript numbers: draw the three
coordinates as `(r - 0.5) * 20`, compute `distance = Math.sqrt(x*x + y*y +
z*z)` and apply the minimum-distance rescale `scale = 2 / distance` when
`distance < 2`. `Math.sqrt` is abstracted as `sqrtFn`; the theorems assume of
it only `sqrtFn 0 = 0`, which IEEE-754 square root satisfies exactly. -/
def genStarPosJS (sqrtFn : JSNum → JSNum) (r1 r2 r3 : JSNum) :
    JSNum × JSNum × JSNum :=
  let x := (r1.sub (.num (1 / 2))).mul (.num 20)
  let y := (r2.sub (.num (1 / 2))).mul (.num 20)
  let z := (r3.sub (.num (1 / 2))).mul (.num 20)
  let distance := sqrtFn (((x.mul x).add (y.mul y)).add (z.mul z))
  if distance.lt (.num 2) then
    let scale := (JSNum.num 2).div distance
    (x.mul scale, y.mul scale, z.mul scale)
  else
    (x, y, z)

/-- The runtime state of the component: the module-level variables of the
source (`scene`, `camera`, `renderer`, `animationFrameId`), the mutable state
of the objects they point at, the browser's animation-frame queue (at most one
callback of this component is ever pending, since only `animate` reschedules
itself), and instrumentation counters for the external calls
(`renderer.render`, `cancelAnimationFrame`, `renderer.dispose`). Scalar
object state is modelled over `ℚ` (exact arithmetic). -/
structure RState where
  sceneBuilt : Bool
  cameraBuilt : Bool
  camFov : ℚ
  camAspect : ℚ
  camProjAspect : ℚ
  camNear : ℚ
  camFar : ℚ
  camPosZ : ℚ
  rendererPresent : Bool
  rendWidth : ℚ
  rendHeight : ℚ
  pixelRatio : ℚ
  positions : List ℝ
  colors : List ℝ
  sizes : List ℝ
  rotX : ℚ
  rotY : ℚ
  rotZ : ℚ
  uTime : ℚ
  hasUniforms : Bool
  resizeRegistered : Bool
  animationFrameId : Option ℕ
  pendingFrame : Option ℕ
  nextHandle : ℕ
  renders : ℕ
  cancels : ℕ
  disposals : ℕ

/-- The state of a freshly loaded page: nothing constructed, nothing
scheduled, no external call made yet. Animation-frame handles are issued from
1 upward (they are non-zero, matching the truthiness test of the source's
unmount handler). -/
def initRState : RState :=
  { sceneBuilt := false
    cameraBuilt := false
    camFov := 0
    camAspect := 0
    camProjAspect := 0
    camNear := 0
    camFar := 0
    camPosZ := 0
    rendererPresent := false
    rendWidth := 0
    rendHeight := 0
    pixelRatio := 0
    positions := []
    colors := []
    sizes := []
    rotX := 0
    rotY := 0
    rotZ := 0
    uTime := 0
    hasUniforms := false
    resizeRegistered := false
    animationFrameId := none
    pendingFrame := none
    nextHandle := 1
    renders := 0
    cancels := 0
    disposals := 0 }

/-- One invocation of the `animate` callback (lines 123-133 of the source):
request the next frame first, storing its handle in `animationFrameId`;
increment `stars.rotation.y` by 0.0002; increment the `uTime` uniform by 0.01
if the material's uniform table exists; render the scene. -/
def animateStep (s : RState) : RState :=
  { s with
    animationFrameId := some s.nextHandle
    pendingFrame := some s.nextHandle
    nextHandle := s.nextHandle + 1
    rotY := s.rotY + 0.0002
    uTime := if s.hasUniforms then s.uTime + 0.01 else s.uTime
    renders := s.renders + 1 }

/-- The browser firing the pending animation frame, if any: the callback is
dequeued and then run (so `animate` immediately schedules its successor).
With nothing pending, nothing happens. -/
def fireFrame (s : RState) : RState :=
  match s.pendingFrame with
  | some _ => animateStep { s with pendingFrame := none }
  | none => s

/-- The setup performed by the mount handler once a canvas is present (lines
14-120 of the source), just before the first `animate()` call: scene, camera
(fov 75, aspect `w / h`, near 0.1, far 1000, position.z 5, projection matrix
computed by the constructor), renderer (sized `w × h` at pixel ratio `dpr`),
the generated star buffers, the shader material with its uniform table and
`uTime = 0`, the points object at rotation zero, and the resize listener. -/
noncomputable def mountSetup (rand : ℕ → ℝ) (w h dpr : ℚ) : RState :=
  { initRState with
    sceneBuilt := true
    cameraBuilt := true
    camFov := 75
    camAspect := w / h
    camProjAspect := w / h
    camNear := 0.1
    camFar := 1000
    camPosZ := 5
    rendererPresent := true
    rendWidth := w
    rendHeight := h
    pixelRatio := dpr
    positions := (generateStars rand).positions
    colors := (generateStars rand).colors
    sizes := (generateStars rand).sizes
    rotX := 0
    rotY := 0
    rotZ := 0
    uTime := 0
    hasUniforms := true
    resizeRegistered := true }

/-- The mount handler (`onMounted`, lines 11-135): with no canvas it returns
immediately, leaving the fresh page state untouched; otherwise it performs the
setup and invokes `animate()` once. `w`, `h` and `dpr` are
`window.innerWidth`, `window.innerHeight` and `window.devicePixelRatio`. -/
noncomputable def mountComponent (canvas : Option Unit) (rand : ℕ → ℝ)
    (w h dpr : ℚ) : RState :=
  match canvas with
  | none => initRState
  | some _ => animateStep (mountSetup rand w h dpr)

/-- The resize handler (`handleResize`, lines 115-119): set `camera.aspect`
to `w / h`, call `camera.updateProjectionMatrix()`, and resize the renderer
to `w × h`. -/
def handleResize (w h : ℚ) (s : RState) : RState :=
  { s with
    camAspect := w / h
    camProjAspect := w / h
    rendWidth := w
    rendHeight := h }

/-- The unmount handler (`onUnmounted`, lines 137-142): if `animationFrameId`
is truthy (a non-zero stored handle), call `cancelAnimationFrame` on it,
removing the matching pending callback; then `renderer?.dispose()` — the
optional chaining skips the call when no renderer was ever constructed, and
calling `.dispose()` on the missing renderer without it would throw, which the
`Except` result makes explicit (the handler as written never returns
`Except.error`). -/
def unmountComponent (s : RState) : Except String RState :=
  let s1 :=
    match s.animationFrameId with
    | some id =>
      if id ≠ 0 then
        { s with
          pendingFrame := if s.pendingFrame = some id then none else s.pendingFrame
          cancels := s.cancels + 1 }
      else s
    | none => s
  if s1.rendererPresent then
    Except.ok { s1 with disposals := s1.disposals + 1 }
  else
    Except.ok s1

/-! ## List helper lemmas -/

theorem set_append_add {α : Type} (l2 : List α) (i : ℕ) (v : α) (l1 : List α) :
    (l1 ++ l2).set (l1.length + i) v = l1 ++ l2.set i v := by
  induction l1 with
  | nil => simp
  | cons a t ih =>
    have h : (a :: t).length + i = (t.length + i) + 1 := by simp; omega
    rw [List.cons_append, h, List.set, ih, List.cons_append]

theorem set_append_of_le {α : Type} (l1 l2 : List α) (n : ℕ) (v : α)
    (h : l1.length ≤ n) :
    (l1 ++ l2).set n v = l1 ++ l2.set (n - l1.length) v := by
  obtain ⟨i, rfl⟩ : ∃ i, n = l1.length + i := ⟨n - l1.length, by omega⟩
  rw [set_append_add, Nat.add_sub_cancel_left]

theorem replicate_set_three {α : Type} (d x y z : α) (m : ℕ) (hm : 3 ≤ m) :
    (((List.replicate m d).set 0 x).set 1 y).set 2 z =
      [x, y, z] ++ List.replicate (m - 3) d := by
  obtain ⟨a, rfl⟩ : ∃ a, m = a + 3 := ⟨m - 3, by omega⟩
  have h : List.replicate (a + 3) d = d :: d :: d :: List.replicate a d := by
    rw [show a + 3 = (a + 2) + 1 from rfl, List.replicate_succ,
      show a + 2 = (a + 1) + 1 from rfl, List.replicate_succ, List.replicate_succ]
  rw [h]
  simp [List.set]

theorem length_flat3 (f g h : ℕ → ℝ) (k : ℕ) :
    (Starfield.flat3 f g h k).length = 3 * k := by
  induction k with
  | zero => simp [Starfield.flat3]
  | succ n ih => simp [Starfield.flat3, ih]; omega

theorem length_flat1 (f : ℕ → ℝ) (k : ℕ) :
    (Starfield.flat1 f k).length = k := by
  induction k with
  | zero => simp [Starfield.flat1]
  | succ n ih => simp [Starfield.flat1, ih]

theorem flat3_getD (f g h : ℕ → ℝ) (k i : ℕ) (hi : i < k) :
    (Starfield.flat3 f g h k).getD (3 * i) 0 = f i ∧
      (Starfield.flat3 f g h k).getD (3 * i + 1) 0 = g i ∧
      (Starfield.flat3 f g h k).getD (3 * i + 2) 0 = h i := by
  induction k with
  | zero => omega
  | succ n ih =>
    rcases Nat.lt_or_ge i n with h1 | h1
    · obtain ⟨e0, e1, e2⟩ := ih h1
      refine ⟨?_, ?_, ?_⟩ <;>
        rw [Starfield.flat3, List.getD_append _ _ _ _ (by rw [length_flat3]; omega)] <;>
        assumption
    · have hin : i = n := by omega
      subst hin
      refine ⟨?_, ?_, ?_⟩ <;>
        rw [Starfield.flat3,
          List.getD_append_right _ _ _ _ (by simp [length_flat3]),
          length_flat3]
      · rw [show 3 * i - 3 * i = 0 from by omega]; rfl
      · rw [show 3 * i + 1 - 3 * i = 1 from by omega]; rfl
      · rw [show 3 * i + 2 - 3 * i = 2 from by omega]; rfl

theorem flat1_getD (f : ℕ → ℝ) (k i : ℕ) (hi : i < k) :
    (Starfield.flat1 f k).getD i 0 = f i := by
  induction k with
  | zero => omega
  | succ n ih =>
    rcases Nat.lt_or_ge i n with h1 | h1
    · rw [Starfield.flat1, List.getD_append _ _ _ _ (by rw [length_flat1]; omega)]
      exact ih h1
    · have hin : i = n := by omega
      subst hin
      rw [Starfield.flat1,
        List.getD_append_right _ _ _ _ (by rw [length_flat1]), length_flat1,
        show i - i = 0 from by omega]
      rfl

/-! ## The generation loop, iteration by iteration -/

theorem genLoop_spec (rand : ℕ → ℝ) (k : ℕ) (hk : k ≤ 2000) :
    (genLoop rand k).positions =
        flat3 (posX rand) (posY rand) (posZ rand) k ++
          List.replicate (6000 - 3 * k) 0 ∧
      (genLoop rand k).colors =
        flat3 (fun i => rand (7 * i + 3)) (fun i => rand (7 * i + 4))
            (fun i => rand (7 * i + 5)) k ++
          List.replicate (6000 - 3 * k) 0 ∧
      (genLoop rand k).sizes =
        flat1 (storedSize rand) k ++ List.replicate (2000 - k) 0 ∧
      (genLoop rand k).posWrites = List.range (3 * k) ∧
      (genLoop rand k).colorWrites = List.range (3 * k) ∧
      (genLoop rand k).sizeWrites = List.range k := by
  induction k with
  | zero => exact ⟨rfl, rfl, rfl, rfl, rfl, rfl⟩
  | succ n ih =>
    obtain ⟨hp, hc, hs, hpw, hcw, hsw⟩ := ih (by omega)
    have hrange3 : List.range (3 * (n + 1)) =
        List.range (3 * n) ++ [3 * n, 3 * n + 1, 3 * n + 2] := by
      rw [show 3 * (n + 1) = ((3 * n) + 1 + 1 + 1) from by omega,
        List.range_succ, List.range_succ, List.range_succ]
      simp
    refine ⟨?_, ?_, ?_, ?_, ?_, ?_⟩
    · simp only [genLoop, genStar]
      rw [hp, Nat.mul_comm n 3]
      rw [set_append_of_le _ _ _ _ (by rw [length_flat3]),
        set_append_of_le _ _ _ _ (by simp [length_flat3]),
        set_append_of_le _ _ _ _ (by simp [length_flat3]),
        length_flat3,
        show 3 * n - 3 * n = 0 from by omega,
        show 3 * n + 1 - 3 * n = 1 from by omega,
        show 3 * n + 2 - 3 * n = 2 from by omega,
        replicate_set_three _ _ _ _ _ (by omega),
        show 6000 - 3 * n - 3 = 6000 - 3 * (n + 1) from by omega]
      simp [flat3, posX, posY, posZ, List.append_assoc]
    · simp only [genLoop, genStar]
      rw [hc, Nat.mul_comm n 3]
      rw [set_append_of_le _ _ _ _ (by rw [length_flat3]),
        set_append_of_le _ _ _ _ (by simp [length_flat3]),
        set_append_of_le _ _ _ _ (by simp [length_flat3]),
        length_flat3,
        show 3 * n - 3 * n = 0 from by omega,
        show 3 * n + 1 - 3 * n = 1 from by omega,
        show 3 * n + 2 - 3 * n = 2 from by omega,
        replicate_set_three _ _ _ _ _ (by omega),
        show 6000 - 3 * n - 3 = 6000 - 3 * (n + 1) from by omega]
      simp [flat3, List.append_assoc]
    · simp only [genLoop, genStar]
      rw [hs]
      rw [set_append_of_le _ _ _ _ (by rw [length_flat1]), length_flat1,
        show n - n = 0 from by omega]
      have hrep : (List.replicate (2000 - n) (0 : ℝ)).set 0 (storedSize rand n) =
          [storedSize rand n] ++ List.replicate (2000 - (n + 1)) 0 := by
        rw [show 2000 - n = (2000 - (n + 1)) + 1 from by omega, List.replicate_succ]
        simp [List.set]
      rw [hrep]
      simp [flat1, List.append_assoc]
    · simp only [genLoop, genStar]
      rw [hpw, Nat.mul_comm n 3, hrange3]
    · simp only [genLoop, genStar]
      rw [hcw, Nat.mul_comm n 3, hrange3]
    · simp only [genLoop, genStar]
      rw [hsw, List.range_succ]

theorem generateStars_positions (rand : ℕ → ℝ) :
    (generateStars rand).positions = flat3 (posX rand) (posY rand) (posZ rand) 2000 := by
  have h := (genLoop_spec rand 2000 le_rfl).1
  rw [show generateStars rand = genLoop rand 2000 from rfl, h,
    show 6000 - 3 * 2000 = 0 from rfl]
  simp

theorem generateStars_colors (rand : ℕ → ℝ) :
    (generateStars rand).colors =
      flat3 (fun i => rand (7 * i + 3)) (fun i => rand (7 * i + 4))
        (fun i => rand (7 * i + 5)) 2000 := by
  have h := (genLoop_spec rand 2000 le_rfl).2.1
  rw [show generateStars rand = genLoop rand 2000 from rfl, h,
    show 6000 - 3 * 2000 = 0 from rfl]
  simp

theorem generateStars_sizes (rand : ℕ → ℝ) :
    (generateStars rand).sizes = flat1 (storedSize rand) 2000 := by
  have h := (genLoop_spec rand 2000 le_rfl).2.2.1
  rw [show generateStars rand = genLoop rand 2000 from rfl, h,
    show 2000 - 2000 = 0 from rfl]
  simp

theorem posTriple_eq (rand : ℕ → ℝ) (i : ℕ) (hi : i < 2000) :
    posTriple (generateStars rand) i = storedPos rand i := by
  obtain ⟨e0, e1, e2⟩ := flat3_getD (posX rand) (posY rand) (posZ rand) 2000 i hi
  unfold posTriple
  rw [generateStars_positions, e0, e1, e2]
  simp [posX, posY, posZ]

/-! ## The minimum-distance rescale -/

theorem rescaled_of_lt (x y z : ℝ)
    (h0 : 0 < Real.sqrt (x * x + y * y + z * z))
    (h2 : Real.sqrt (x * x + y * y + z * z) < 2) :
    rescaled x y z =
      (x * (2 / Real.sqrt (x * x + y * y + z * z)),
       y * (2 / Real.sqrt (x * x + y * y + z * z)),
       z * (2 / Real.sqrt (x * x + y * y + z * z))) ∧
    tripleNorm (rescaled x y z) = 2 := by
  have hval : rescaled x y z =
      (x * (2 / Real.sqrt (x * x + y * y + z * z)),
       y * (2 / Real.sqrt (x * x + y * y + z * z)),
       z * (2 / Real.sqrt (x * x + y * y + z * z))) := by
    unfold rescaled minDistance
    rw [if_pos h2]
  refine ⟨hval, ?_⟩
  rw [hval]
  unfold tripleNorm
  have hs : (0 : ℝ) ≤ 2 / Real.sqrt (x * x + y * y + z * z) :=
    div_nonneg (by norm_num) (le_of_lt h0)
  have hA : x * (2 / Real.sqrt (x * x + y * y + z * z)) *
        (x * (2 / Real.sqrt (x * x + y * y + z * z))) +
      y * (2 / Real.sqrt (x * x + y * y + z * z)) *
        (y * (2 / Real.sqrt (x * x + y * y + z * z))) +
      z * (2 / Real.sqrt (x * x + y * y + z * z)) *
        (z * (2 / Real.sqrt (x * x + y * y + z * z))) =
      (2 / Real.sqrt (x * x + y * y + z * z)) *
        (2 / Real.sqrt (x * x + y * y + z * z)) *
        (x * x + y * y + z * z) := by ring
  rw [hA, Real.sqrt_mul (mul_self_nonneg _), Real.sqrt_mul_self hs]
  exact div_mul_cancel₀ 2 (ne_of_gt h0)

theorem rescaled_of_ge (x y z : ℝ)
    (h2 : 2 ≤ Real.sqrt (x * x + y * y + z * z)) :
    rescaled x y z = (x, y, z) := by
  unfold rescaled minDistance
  rw [if_neg (not_lt.mpr h2)]

/-! ## Claim theorems -/

/-- C1: for every one of the 2000 generated stars, if the drawn coordinates
have distance `d` from the origin with `0 < d < 2` then all three coordinates
are multiplied by `2 / d` before being stored and the stored position has
distance exactly 2; if `d ≥ 2` the coordinates are stored unchanged; hence
every stored star position with non-zero initial distance has distance at
least 2 from the origin. -/
theorem star_minimum_distance (rand : ℕ → ℝ) (i : ℕ) (hi : i < 2000) :
    (0 < starDist rand i ∧ starDist rand i < 2 →
        posTriple (generateStars rand) i =
          (drawX rand i * (2 / starDist rand i),
           drawY rand i * (2 / starDist rand i),
           drawZ rand i * (2 / starDist rand i)) ∧
        tripleNorm (posTriple (generateStars rand) i) = 2) ∧
      (2 ≤ starDist rand i →
        posTriple (generateStars rand) i =
          (drawX rand i, drawY rand i, drawZ rand i)) ∧
      (starDist rand i ≠ 0 →
        2 ≤ tripleNorm (posTriple (generateStars rand) i)) := by
  have hpt : posTriple (generateStars rand) i =
      rescaled (drawX rand i) (drawY rand i) (drawZ rand i) :=
    posTriple_eq rand i hi
  have hlt : 0 < starDist rand i → starDist rand i < 2 →
      posTriple (generateStars rand) i =
        (drawX rand i * (2 / starDist rand i),
         drawY rand i * (2 / starDist rand i),
         drawZ rand i * (2 / starDist rand i)) ∧
      tripleNorm (posTriple (generateStars rand) i) = 2 := by
    intro h0 h2
    obtain ⟨hv, hn⟩ := rescaled_of_lt (drawX rand i) (drawY rand i) (drawZ rand i) h0 h2
    exact ⟨by rw [hpt, hv]; rfl, by rw [hpt, hn]⟩
  refine ⟨fun h => hlt h.1 h.2, ?_, ?_⟩
  · intro h2
    rw [hpt, rescaled_of_ge _ _ _ h2]
  · intro hne
    rcases lt_or_ge (starDist rand i) 2 with h2 | h2
    · have h0 : 0 < starDist rand i :=
        lt_of_le_of_ne (Real.sqrt_nonneg _) (Ne.symm hne)
      exact le_of_eq ((hlt h0 h2).2).symm
    · rw [hpt, rescaled_of_ge _ _ _ h2]
      exact h2

/-- Witness for C1: with every draw equal to 1, star 0 is drawn at
(10, 10, 10), whose distance from the origin is non-zero, so its stored
position has distance at least 2. -/
theorem star_minimum_distance_witness :
    2 ≤ tripleNorm (posTriple (generateStars fun _ => 1) 0) :=
  (star_minimum_distance (fun _ => 1) 0 (by norm_num)).2.2
    (ne_of_gt (Real.sqrt_pos.mpr (by norm_num [drawX, drawY, drawZ])))

/-- C2: every run of the star-generation step yields exactly 2000 stars, a
position buffer of length 6000, a colour buffer of length 6000 and a size
buffer of length 2000, and the generation loop writes every buffer slot
exactly once (the write trace of each buffer is exactly one write per index,
in order). -/
theorem star_buffer_lengths (rand : ℕ → ℝ) :
    starCount = 2000 ∧
      (generateStars rand).positions.length = 6000 ∧
      (generateStars rand).colors.length = 6000 ∧
      (generateStars rand).sizes.length = 2000 ∧
      (generateStars rand).posWrites = List.range 6000 ∧
      (generateStars rand).colorWrites = List.range 6000 ∧
      (generateStars rand).sizeWrites = List.range 2000 ∧
      (∀ k, k < 6000 → (generateStars rand).posWrites.count k = 1 ∧
        (generateStars rand).colorWrites.count k = 1) ∧
      (∀ k, k < 2000 → (generateStars rand).sizeWrites.count k = 1) := by
  obtain ⟨hp, hc, hs, hpw, hcw, hsw⟩ := genLoop_spec rand 2000 le_rfl
  have hgen : generateStars rand = genLoop rand 2000 := rfl
  have hpw' : (generateStars rand).posWrites = List.range 6000 := by
    rw [hgen, hpw]
  have hcw' : (generateStars rand).colorWrites = List.range 6000 := by
    rw [hgen, hcw]
  have hsw' : (generateStars rand).sizeWrites = List.range 2000 := by
    rw [hgen, hsw]
  refine ⟨rfl, ?_, ?_, ?_, hpw', hcw', hsw', ?_, ?_⟩
  · rw [generateStars_positions, length_flat3]
  · rw [generateStars_colors, length_flat3]
  · rw [generateStars_sizes, length_flat1]
  · intro k hk
    refine ⟨?_, ?_⟩
    · rw [hpw']
      exact List.count_eq_one_of_mem (List.nodup_range _) (List.mem_range.mpr hk)
    · rw [hcw']
      exact List.count_eq_one_of_mem (List.nodup_range _) (List.mem_range.mpr hk)
  · intro k hk
    rw [hsw']
    exact List.count_eq_one_of_mem (List.nodup_range _) (List.mem_range.mpr hk)

/-- Witness for C2: with the zero random stream, the position buffer has
length 6000 and slot 0 is written exactly once. -/
theorem star_buffer_lengths_witness :
    (generateStars fun _ => 0).positions.length = 6000 ∧
      (generateStars fun _ => 0).posWrites.count 0 = 1 :=
  ⟨(star_buffer_lengths fun _ => 0).2.1,
    ((star_buffer_lengths fun _ => 0).2.2.2.2.2.2.2.1 0 (by norm_num)).1⟩

/-- C8: every generated star size equals `r × 0.3 + 0.1` for its uniform draw
`r ∈ [0, 1)` and hence lies in `[0.1, 0.4)`; every stored colour component is
a raw uniform draw and hence lies in `[0, 1)`. -/
theorem star_size_color_range (rand : ℕ → ℝ)
    (hr : ∀ n, 0 ≤ rand n ∧ rand n < 1) (i : ℕ) (hi : i < 2000) :
    (generateStars rand).sizes.getD i 0 = rand (7 * i + 6) * 0.3 + 0.1 ∧
      (0.1 ≤ (generateStars rand).sizes.getD i 0 ∧
        (generateStars rand).sizes.getD i 0 < 0.4) ∧
      (0 ≤ (generateStars rand).colors.getD (3 * i) 0 ∧
        (generateStars rand).colors.getD (3 * i) 0 < 1) ∧
      (0 ≤ (generateStars rand).colors.getD (3 * i + 1) 0 ∧
        (generateStars rand).colors.getD (3 * i + 1) 0 < 1) ∧
      (0 ≤ (generateStars rand).colors.getD (3 * i + 2) 0 ∧
        (generateStars rand).colors.getD (3 * i + 2) 0 < 1) := by
  have hsz : (generateStars rand).sizes.getD i 0 = rand (7 * i + 6) * 0.3 + 0.1 := by
    rw [generateStars_sizes, flat1_getD _ _ _ hi]
    rfl
  obtain ⟨e0, e1, e2⟩ := flat3_getD (fun i => rand (7 * i + 3))
    (fun i => rand (7 * i + 4)) (fun i => rand (7 * i + 5)) 2000 i hi
  have hc0 : (generateStars rand).colors.getD (3 * i) 0 = rand (7 * i + 3) := by
    rw [generateStars_colors]; exact e0
  have hc1 : (generateStars rand).colors.getD (3 * i + 1) 0 = rand (7 * i + 4) := by
    rw [generateStars_colors]; exact e1
  have hc2 : (generateStars rand).colors.getD (3 * i + 2) 0 = rand (7 * i + 5) := by
    rw [generateStars_colors]; exact e2
  obtain ⟨hs0, hs1⟩ := hr (7 * i + 6)
  refine ⟨hsz, ⟨?_, ?_⟩, ?_, ?_, ?_⟩
  · rw [hsz]; nlinarith
  · rw [hsz]; nlinarith
  · rw [hc0]; exact hr (7 * i + 3)
  · rw [hc1]; exact hr (7 * i + 4)
  · rw [hc2]; exact hr (7 * i + 5)

/-- Witness for C8: with every draw equal to 1/2, star 0's size lies in
[0.1, 0.4). -/
theorem star_size_color_range_witness :
    0.1 ≤ (generateStars fun _ => (1 : ℝ) / 2).sizes.getD 0 0 ∧
      (generateStars fun _ => (1 : ℝ) / 2).sizes.getD 0 0 < 0.4 :=
  (star_size_color_range (fun _ => (1 : ℝ) / 2) (by norm_num) 0 (by norm_num)).2.1

/-- C5: a star drawn exactly at the origin (all three draws equal to 0.5, so
each coordinate is 0 and the distance is 0) makes the rescale factor
`scale = 2 / distance` a division by zero yielding the non-finite value
`Infinity`; the code does not guard this case, and the stored coordinates of
that star come out `NaN`, hence non-finite. The only property assumed of the
abstracted `Math.sqrt` is that it maps 0 to 0. -/
theorem origin_star_nonfinite (sqrtFn : JSNum → JSNum)
    (hs : sqrtFn (.num 0) = .num 0) :
    JSNum.div (.num 2) (.num 0) = .posInf ∧
      JSNum.isFinite (JSNum.div (.num 2) (.num 0)) = false ∧
      genStarPosJS sqrtFn (.num (1 / 2)) (.num (1 / 2)) (.num (1 / 2)) =
        (.nan, .nan, .nan) ∧
      JSNum.isFinite
        (genStarPosJS sqrtFn (.num (1 / 2)) (.num (1 / 2)) (.num (1 / 2))).1 =
        false := by
  have hx : (JSNum.num (1 / 2)).sub (.num (1 / 2)) = .num 0 := by
    rw [show (JSNum.num (1 / 2)).sub (.num (1 / 2)) = .num (1 / 2 - 1 / 2) from rfl]
    norm_num
  have hdiv : JSNum.div (.num 2) (.num 0) = .posInf := by
    rw [show JSNum.div (.num 2) (.num 0) =
      (if (0 : ℚ) = 0 then (if (2 : ℚ) = 0 then JSNum.nan
        else if 0 < (2 : ℚ) then JSNum.posInf else JSNum.negInf)
        else JSNum.num (2 / 0)) from rfl]
    norm_num
  have hmain : genStarPosJS sqrtFn (.num (1 / 2)) (.num (1 / 2)) (.num (1 / 2)) =
      (.nan, .nan, .nan) := by
    simp only [genStarPosJS]
    rw [hx]
    rw [show (JSNum.num 0).mul (.num 20) = .num (0 * 20) from rfl]
    norm_num
    rw [show (JSNum.num 0).mul (.num 0) = .num (0 * 0) from rfl]
    norm_num
    rw [show (JSNum.num 0).add (.num 0) = .num (0 + 0) from rfl]
    norm_num
    rw [show (JSNum.num 0).add (.num 0) = .num (0 + 0) from rfl]
    norm_num
    rw [hs]
    rw [show (JSNum.num 0).lt (.num 2) = true from by norm_num [JSNum.lt]]
    rw [if_pos rfl, hdiv]
    rw [show (JSNum.num 0).mul JSNum.posInf =
      (if (0 : ℚ) = 0 then JSNum.nan
        else if 0 < (0 : ℚ) then JSNum.posInf else JSNum.negInf) from rfl]
    norm_num
  exact ⟨hdiv, by rw [hdiv]; rfl, hmain, by rw [hmain]; rfl⟩

/-- Witness for C5: instantiating the abstract square root with the identity
function, which does map 0 to 0. -/
theorem origin_star_nonfinite_witness :
    genStarPosJS id (.num (1 / 2)) (.num (1 / 2)) (.num (1 / 2)) =
      (.nan, .nan, .nan) :=
  (origin_star_nonfinite id rfl).2.2.1

/-! ## Lifecycle lemmas -/

theorem animateStep_iter (s : RState) (hu : s.hasUniforms = true) (n : ℕ) :
    (animateStep^[n] s).rotY = s.rotY + n * 0.0002 ∧
      (animateStep^[n] s).uTime = s.uTime + n * 0.01 ∧
      (animateStep^[n] s).hasUniforms = true := by
  induction n with
  | zero => simp [hu]
  | succ m ih =>
    obtain ⟨h1, h2, h3⟩ := ih
    rw [Function.iterate_succ_apply']
    refine ⟨?_, ?_, ?_⟩
    · rw [show (animateStep (animateStep^[m] s)).rotY =
        (animateStep^[m] s).rotY + 0.0002 from rfl, h1]
      push_cast
      ring
    · rw [show (animateStep (animateStep^[m] s)).uTime =
          (if (animateStep^[m] s).hasUniforms then (animateStep^[m] s).uTime + 0.01
            else (animateStep^[m] s).uTime) from rfl,
        h3, if_pos rfl, h2]
      push_cast
      ring
    · rw [show (animateStep (animateStep^[m] s)).hasUniforms =
        (animateStep^[m] s).hasUniforms from rfl, h3]

/-- C3: starting from rotation 0 and time uniform 0 (the state the mount
handler sets up), after exactly `n` invocations of the animation callback the
points object's rotation about the vertical axis equals `n × 0.0002` and the
shader's `uTime` uniform equals `n × 0.01`; the time-uniform increment is
applied only when the material's uniform table exists. -/
theorem animation_increment_determinism (rand : ℕ → ℝ) (w h dpr : ℚ) (n : ℕ) :
    (mountSetup rand w h dpr).rotY = 0 ∧
      (mountSetup rand w h dpr).uTime = 0 ∧
      (animateStep^[n] (mountSetup rand w h dpr)).rotY = n * 0.0002 ∧
      (animateStep^[n] (mountSetup rand w h dpr)).uTime = n * 0.01 ∧
      (∀ s : RState, s.hasUniforms = false → (animateStep s).uTime = s.uTime) := by
  obtain ⟨h1, h2, _⟩ := animateStep_iter (mountSetup rand w h dpr) rfl n
  refine ⟨rfl, rfl, ?_, ?_, ?_⟩
  · rw [h1, show (mountSetup rand w h dpr).rotY = 0 from rfl, zero_add]
  · rw [h2, show (mountSetup rand w h dpr).uTime = 0 from rfl, zero_add]
  · intro s hsu
    rw [show (animateStep s).uTime =
      (if s.hasUniforms then s.uTime + 0.01 else s.uTime) from rfl, hsu]
    rfl

/-- Witness for C3: three frames after mount the rotation is 3 × 0.0002 and
the time uniform is 3 × 0.01; on a state without a uniform table (the fresh
page state) a frame leaves the time uniform unchanged. -/
theorem animation_increment_determinism_witness :
    (animateStep^[3] (mountSetup (fun _ => 0) 1 1 1)).rotY = 3 * 0.0002 ∧
      (animateStep^[3] (mountSetup (fun _ => 0) 1 1 1)).uTime = 3 * 0.01 ∧
      (animateStep initRState).uTime = initRState.uTime :=
  ⟨by
      have := (animation_increment_determinism (fun _ => 0) 1 1 1 3).2.2.1
      rw [this]; norm_num,
    by
      have := (animation_increment_determinism (fun _ => 0) 1 1 1 3).2.2.2.1
      rw [this]; norm_num,
    (animation_increment_determinism (fun _ => 0) 1 1 1 3).2.2.2.2 initRState rfl⟩

/-- C4: when no canvas is available at mount time, the mount handler performs
no setup at all: the component state is exactly the fresh page state — no
scene, camera or renderer is constructed, no resize listener is registered,
no animation frame is scheduled — and no render call ever occurs, no matter
how many animation-frame opportunities pass. -/
theorem missing_canvas_noop (rand : ℕ → ℝ) (w h dpr : ℚ) (n : ℕ) :
    mountComponent none rand w h dpr = initRState ∧
      (mountComponent none rand w h dpr).sceneBuilt = false ∧
      (mountComponent none rand w h dpr).cameraBuilt = false ∧
      (mountComponent none rand w h dpr).rendererPresent = false ∧
      (mountComponent none rand w h dpr).resizeRegistered = false ∧
      (mountComponent none rand w h dpr).animationFrameId = none ∧
      (fireFrame^[n] (mountComponent none rand w h dpr)).renders = 0 := by
  refine ⟨rfl, rfl, rfl, rfl, rfl, rfl, ?_⟩
  rw [show mountComponent none rand w h dpr = initRState from rfl,
    Function.iterate_fixed (show fireFrame initRState = initRState from rfl) n]
  rfl

/-- C9: invoking the unmount handler when mount never completed setup is a
safe no-op: with no stored handle the cancellation is skipped, the dispose of
the absent renderer is skipped by the optional access, no call counter moves,
and no error is raised (the handler returns `Except.ok`). -/
theorem unmount_without_setup_noop (rand : ℕ → ℝ) (w h dpr : ℚ) :
    unmountComponent (mountComponent none rand w h dpr) = Except.ok initRState ∧
      initRState.cancels = 0 ∧ initRState.disposals = 0 ∧
      initRState.renders = 0 ∧ initRState.animationFrameId = none ∧
      initRState.rendererPresent = false :=
  ⟨rfl, rfl, rfl, rfl, rfl, rfl⟩

/-- C7: the resize handler is idempotent — invoking it twice with the same
width and height gives the same state as invoking it once — and one
invocation sets the camera aspect ratio to `w / h`, refreshes the projection
to that aspect, and resizes the renderer to `w × h`. -/
theorem resize_idempotent (w h : ℚ) (s : RState) :
    handleResize w h (handleResize w h s) = handleResize w h s ∧
      (handleResize w h s).camAspect = w / h ∧
      (handleResize w h s).camProjAspect = w / h ∧
      (handleResize w h s).rendWidth = w ∧
      (handleResize w h s).rendHeight = h :=
  ⟨rfl, rfl, rfl, rfl, rfl⟩

/-- C10: one invocation of the animation callback mutates only the rotation
about the vertical axis (by 0.0002) and the shader's `uTime` uniform (by 0.01
when the uniform table exists): the position, colour and size buffers, every
camera parameter, and the rotation about the other two axes are unchanged. -/
theorem animation_frame_effect (s : RState) :
    (animateStep s).positions = s.positions ∧
      (animateStep s).colors = s.colors ∧
      (animateStep s).sizes = s.sizes ∧
      (animateStep s).camFov = s.camFov ∧
      (animateStep s).camAspect = s.camAspect ∧
      (animateStep s).camProjAspect = s.camProjAspect ∧
      (animateStep s).camNear = s.camNear ∧
      (animateStep s).camFar = s.camFar ∧
      (animateStep s).camPosZ = s.camPosZ ∧
      (animateStep s).rotX = s.rotX ∧
      (animateStep s).rotZ = s.rotZ ∧
      (animateStep s).rotY = s.rotY + 0.0002 ∧
      (animateStep s).uTime =
        (if s.hasUniforms then s.uTime + 0.01 else s.uTime) :=
  ⟨rfl, rfl, rfl, rfl, rfl, rfl, rfl, rfl, rfl, rfl, rfl, rfl, rfl⟩

/-- The invariant maintained by the animation loop after a completed mount:
the stored handle always equals the pending one and is non-zero, handles are
issued from a non-zero counter, the renderer is present, and neither
cancellation nor disposal has happened. -/
theorem mounted_invariant (rand : ℕ → ℝ) (w h dpr : ℚ) (n : ℕ) :
    (fireFrame^[n] (mountComponent (some ()) rand w h dpr)).pendingFrame =
        (fireFrame^[n] (mountComponent (some ()) rand w h dpr)).animationFrameId ∧
      (∃ j, (fireFrame^[n] (mountComponent (some ()) rand w h dpr)).animationFrameId
          = some j ∧ j ≠ 0) ∧
      (fireFrame^[n] (mountComponent (some ()) rand w h dpr)).nextHandle ≠ 0 ∧
      (fireFrame^[n] (mountComponent (some ()) rand w h dpr)).rendererPresent = true ∧
      (fireFrame^[n] (mountComponent (some ()) rand w h dpr)).cancels = 0 ∧
      (fireFrame^[n] (mountComponent (some ()) rand w h dpr)).disposals = 0 := by
  induction n with
  | zero =>
    exact ⟨rfl, ⟨1, rfl, by norm_num⟩, (by norm_num : (2 : ℕ) ≠ 0), rfl, rfl, rfl⟩
  | succ m ih =>
    obtain ⟨hpe, ⟨j, hj, hj0⟩, hnh, hrp, hc, hd⟩ := ih
    rw [Function.iterate_succ_apply']
    set t := fireFrame^[m] (mountComponent (some ()) rand w h dpr) with ht
    have hfire : fireFrame t = animateStep { t with pendingFrame := none } := by
      unfold fireFrame
      rw [hpe, hj]
    rw [hfire]
    refine ⟨rfl, ⟨t.nextHandle, rfl, hnh⟩, ?_, hrp, hc, hd⟩
    exact Nat.succ_ne_zero _

/-- On a state whose stored handle is a non-zero `j` matching the pending
frame and whose renderer is present, the unmount handler cancels the pending
frame and disposes the renderer. -/
theorem unmountComponent_eq (s : RState) (j : ℕ) (hj : s.animationFrameId = some j)
    (hj0 : j ≠ 0) (hpe : s.pendingFrame = some j) (hrp : s.rendererPresent = true) :
    unmountComponent s =
      Except.ok { s with
        pendingFrame := none
        cancels := s.cancels + 1
        disposals := s.disposals + 1 } := by
  simp [unmountComponent, hj, hj0, hpe, hrp]

/-- C6: after a mount that completed setup, followed by any number of
animation frames, the unmount handler cancels the stored pending animation
callback (which was scheduled and matches the pending handle), invokes the
renderer's dispose operation exactly once, and afterwards no further
animation frame — hence no further render call — can ever occur. -/
theorem unmount_resource_release (rand : ℕ → ℝ) (w h dpr : ℚ) (n : ℕ) :
    ∃ s' : RState,
      unmountComponent (fireFrame^[n] (mountComponent (some ()) rand w h dpr)) =
          Except.ok s' ∧
        s'.cancels = 1 ∧ s'.disposals = 1 ∧ s'.pendingFrame = none ∧
        (∀ m, fireFrame^[m] s' = s') ∧
        (∀ m, (fireFrame^[m] s').renders = s'.renders) := by
  obtain ⟨hpe, ⟨j, hj, hj0⟩, hnh, hrp, hc, hd⟩ := mounted_invariant rand w h dpr n
  set t := fireFrame^[n] (mountComponent (some ()) rand w h dpr) with ht
  refine ⟨{ t with
      pendingFrame := none
      cancels := t.cancels + 1
      disposals := t.disposals + 1 }, ?_, ?_, ?_, rfl, ?_, ?_⟩
  · exact unmountComponent_eq t j hj hj0 (hpe.trans hj) hrp
  · show t.cancels + 1 = 1
    rw [hc]
  · show t.disposals + 1 = 1
    rw [hd]
  · intro m
    exact Function.iterate_fixed rfl m
  · intro m
    rw [Function.iterate_fixed rfl m]

end Starfield
